import Mathlib

/-!
Verification of the `Abduljebar49/text-editor` React rich-text editor.

Shallow embedding of the editor state store (`src/store/editor.store.ts`),
the zod content schema (`src/schemas/editor.schema.ts`), and the
`useTextEditor` hook (`src/hooks/useTextEditor.ts`).  JavaScript strings
are modelled by Lean `String` (`length` counts characters; the repository
only manipulates plain text), whitespace (`trim`, the regex `\s`) by
`Char.isWhitespace`, fallible operations (a `throw`) by `Except`, and
the wall clock (`new Date().toISOString()`) by an explicit ISO-string
parameter.  Browser locale rendering (`toLocaleString`) is passed in as a
function parameter because it is an external capability.
-/

namespace TextEditor

/-! ### JavaScript string primitives -/

/-- JavaScript `String.prototype.trim` on the character list of a
string: drop leading and trailing whitespace. -/
def jsTrim (cs : List Char) : List Char :=
  ((cs.dropWhile Char.isWhitespace).reverse.dropWhile Char.isWhitespace).reverse

/-- Helper for `splitWsTokens`: `acc` holds the reversed current token. -/
def splitWsTokensAux : List Char → List Char → List (List Char)
  | [], acc => if acc = [] then [] else [acc.reverse]
  | c :: cs, acc =>
      if c.isWhitespace then
        if acc = [] then splitWsTokensAux cs []
        else acc.reverse :: splitWsTokensAux cs []
      else splitWsTokensAux cs (c :: acc)

/-- `split(/\s+/)` applied to an already trimmed string yields exactly
the maximal runs of non-whitespace characters, i.e. the non-empty
tokens. -/
def splitWsTokens (cs : List Char) : List (List Char) :=
  splitWsTokensAux cs []

/-! ### Editor state store (`src/store/editor.store.ts`) -/

structure EditorState where
  content : String
  title : String
  wordCount : Nat
  characterCount : Nat
  hasUnsavedChanges : Bool
  activeFormats : List String
deriving Repr, DecidableEq

def initialState : EditorState :=
  { content := ""
    title := "Untitled Document"
    wordCount := 0
    characterCount := 0
    hasUnsavedChanges := false
    activeFormats := [] }

/-- `calculateCounts`:
`wordCount: content.trim() ? content.trim().split(/\s+/).length : 0`,
`characterCount: content.length`. -/
def calculateCounts (content : String) : Nat × Nat :=
  ( if jsTrim content.toList = [] then 0
    else (splitWsTokens (jsTrim content.toList)).length
  , content.length )

/-- `updateContent` store action: recompute counts, mark unsaved. -/
def updateContent (content : String) (s : EditorState) : EditorState :=
  { s with
    content := content
    wordCount := (calculateCounts content).1
    characterCount := (calculateCounts content).2
    hasUnsavedChanges := true }

/-- `updateTitle` store action. -/
def updateTitle (title : String) (s : EditorState) : EditorState :=
  { s with title := title, hasUnsavedChanges := true }

/-- `clearEditor` store action: reset to the initial state. -/
def clearEditor (_s : EditorState) : EditorState :=
  { initialState with content := "", title := "Untitled Document" }

/-! ### zod `EditorContentSchema` (`src/schemas/editor.schema.ts`)

`title: z.string().min(1).max(200)`, `content: z.string().min(1)`,
`format: z.enum(['html','markdown']).default('html')`,
`metadata: z.object({ createdAt: z.string().datetime(), updatedAt:
z.string().datetime(), wordCount: z.number().min(0), characterCount:
z.number().min(0) }).optional()`.  The `min(0)` checks hold by the `Nat`
typing of the counts. -/

/-- Consume exactly `n` ASCII digits from the front of a character list. -/
def digitsN : Nat → List Char → Option (List Char)
  | 0, cs => some cs
  | _ + 1, [] => none
  | n + 1, c :: cs => if c.isDigit then digitsN n cs else none

/-- Consume one expected character. -/
def expectC (c : Char) : List Char → Option (List Char)
  | [] => none
  | d :: cs => if d = c then some cs else none

/-- After the seconds field: an optional `.` with at least one digit,
then a final `Z` ending the string (zod datetime, no offset). -/
def dtTail : List Char → Bool
  | ['Z'] => true
  | '.' :: rest =>
      let ds := rest.takeWhile Char.isDigit
      ds ≠ [] && rest.dropWhile Char.isDigit = ['Z']
  | _ => false

/-- `z.string().datetime()`: matches
`^\d\x7b4\x7d-\d\x7b2\x7d-\d\x7b2\x7dT\d\x7b2\x7d:\d\x7b2\x7d:\d\x7b2\x7d(\.\d+)?Z$`. -/
def zDatetimeOk (s : String) : Bool :=
  match (((((((((((digitsN 4 s.toList).bind (expectC '-')).bind
      (digitsN 2)).bind (expectC '-')).bind (digitsN 2)).bind
      (expectC 'T')).bind (digitsN 2)).bind (expectC ':')).bind
      (digitsN 2)).bind (expectC ':')).bind (digitsN 2)) with
  | some cs => dtTail cs
  | none => false

structure Metadata where
  createdAt : String
  updatedAt : String
  wordCount : Nat
  characterCount : Nat
deriving Repr, DecidableEq

/-- The parsed `EditorContent` (the `format` field takes its zod default
`"html"` since the store never supplies it). -/
structure EditorContent where
  title : String
  content : String
  format : String
  metadata : Option Metadata
deriving Repr, DecidableEq

/-- First zod issue raised by `EditorContentSchema.parse` on the object
the store builds, `none` when parsing succeeds.  (zod aggregates all
issues into one thrown error; we model the error message by the first
failing check, which is deterministic in the state.) -/
def validationError (title content : String) (md : Metadata) : Option String :=
  if title.length < 1 then some "Title is required"
  else if title.length > 200 then some "Title too long"
  else if content.length < 1 then some "Content is required"
  else if ¬ zDatetimeOk md.createdAt then some "Invalid datetime"
  else if ¬ zDatetimeOk md.updatedAt then some "Invalid datetime"
  else none

inductive ValidationResult where
  | ok (data : EditorContent)
  | err (msg : String)
deriving Repr, DecidableEq

/-- Store `getValidationResult`: parse the current state (plus freshly
generated timestamps `now`) against `EditorContentSchema`. -/
def getValidationResult (s : EditorState) (now : String) : ValidationResult :=
  let md : Metadata :=
    { createdAt := now, updatedAt := now
      wordCount := s.wordCount, characterCount := s.characterCount }
  match validationError s.title s.content md with
  | some e => ValidationResult.err e
  | none =>
      ValidationResult.ok
        { title := s.title, content := s.content
          format := "html", metadata := some md }

structure ExportOptions where
  includeStyles : Bool
  includeMeta : Bool
deriving Repr, DecidableEq

/-- The store's inline stylesheet fragment (CSS braces written as
escapes). -/
def storeStyles : String :=
  "\n  <style>\n    body \x7b \n      font-family: Arial, sans-serif; \n      line-height: 1.6; \n      margin: 40px; \n      max-width: 800px; \n    \x7d\n    .editor-content \x7b \n      border: 1px solid #ddd; \n      padding: 20px; \n      border-radius: 8px; \n      background: white;\n    \x7d\n  </style>"

/-- Store `exportToHTML` document text, assembled exactly as the
template literals do; `locale` models `Date.toLocaleString`. -/
def storeHtml (data : EditorContent) (opts : ExportOptions)
    (locale : String → String) : String :=
  let md := data.metadata.getD
    { createdAt := "", updatedAt := "", wordCount := 0, characterCount := 0 }
  let head := "<!DOCTYPE html>\n<html>\n<head>\n  <meta charset=\"UTF-8\">\n  <meta name=\"viewport\" content=\"width=device-width, initial-scale=1.0\">\n  <title>" ++ data.title ++ "</title>"
  let head := if opts.includeStyles then head ++ storeStyles else head
  let head := head ++ "\n</head>\n<body>"
  let head :=
    if opts.includeMeta then
      head ++ "\n  <div class=\"document-meta\">\n    <h1>" ++ data.title
        ++ "</h1>\n    <p><small>Created: " ++ locale md.createdAt
        ++ " | \n    Words: " ++ toString md.wordCount
        ++ " | \n    Characters: " ++ toString md.characterCount
        ++ "</small></p>\n    <hr>\n  </div>"
    else head
  head ++ "\n  <div class=\"editor-content\">\n    " ++ data.content
    ++ "\n  </div>\n</body>\n</html>"

/-- Store `exportToHTML`: throws (models as `Except.error`) when
validation fails, otherwise returns the document string. -/
def exportToHTML (s : EditorState) (now : String) (opts : ExportOptions)
    (locale : String → String) : Except String String :=
  match getValidationResult s now with
  | ValidationResult.err e => Except.error e
  | ValidationResult.ok data => Except.ok (storeHtml data opts locale)

/-! ### `useTextEditor` hook (`src/hooks/useTextEditor.ts`) -/

/-- A browser `File`: name, MIME type, byte size. -/
structure ImageFile where
  name : String
  type : String
  size : Nat
deriving Repr, DecidableEq

inductive ImageStatus where
  | pending
  | uploading
  | uploaded
  | failed
deriving Repr, DecidableEq

/-- A `pendingImages` record. -/
structure PendingImage where
  id : String
  file : ImageFile
  placeholderUrl : String
  status : ImageStatus
deriving Repr, DecidableEq

/-- Hook configuration: `onImageUpload` / `imageUploadEndpoint` are
modelled by presence flags (their behaviour enters via an outcome
function), plus the image validation parameters. -/
structure HookConfig where
  hasOnImageUpload : Bool
  hasImageUploadEndpoint : Bool
  allowedImageTypes : List String
  maxImageSize : Nat
deriving Repr, DecidableEq

/-- The hook's `editorState`, together with the live editable region:
`editorHTML = none` models `editorRef.current === null`, `some h` the
current `innerHTML`. -/
structure HookState where
  content : String
  title : String
  wordCount : Nat
  characterCount : Nat
  hasUnsavedChanges : Bool
  pendingImages : List PendingImage
  editorHTML : Option String
deriving Repr, DecidableEq

/-- Hook `updateContent`: recompute counts from the given markup and
mark unsaved (`pendingImages` and the live region untouched). -/
def hookUpdateContent (content : String) (m : HookState) : HookState :=
  { m with
    content := content
    wordCount := (calculateCounts content).1
    characterCount := (calculateCounts content).2
    hasUnsavedChanges := true }

/-- `validateImageFile`: MIME allow-list first, then the size bound;
`none` means valid, `some e` carries the alert message. -/
def validateImageFile (cfg : HookConfig) (file : ImageFile) : Option String :=
  if ¬ cfg.allowedImageTypes.contains file.type then
    some ("Invalid file type. Allowed types: "
      ++ String.intercalate ", " cfg.allowedImageTypes)
  else if file.size > cfg.maxImageSize then
    some ("File too large. Maximum size: "
      ++ toString (cfg.maxImageSize / (1024 * 1024)) ++ "MB")
  else none

/-- The `<img>` element `insertImage` builds, serialized. -/
def imgTag (imageId : String) (file : ImageFile) (dataUrl : String) : String :=
  "<img src=\"" ++ dataUrl ++ "\" alt=\"" ++ file.name
    ++ "\" class=\"max-w-full h-auto border rounded\" data-image-id=\""
    ++ imageId ++ "\" data-file-name=\"" ++ file.name
    ++ "\" style=\"max-width: 100%; height: auto;\">"

/-- Where the `<img>` element lands in the live region's markup: when
`atCursor` holds and a selection range was saved, `range.deleteContents()`
plus `range.insertNode(img)` replace the selected span; otherwise
`editorRef.current.appendChild(img)` appends it. -/
def insertedHtml (html tag : String) (atCursor : Bool)
    (savedRange : Option (Nat × Nat)) : String :=
  match atCursor, savedRange with
  | true, some (a, b) =>
      (html.toList.take a).asString ++ tag ++ (html.toList.drop b).asString
  | _, _ => html ++ tag

/-- `insertImage`.  Inputs beyond the file: `atCursor` (the second
argument, default `true`), `savedRange` (the selection inside the live
region, as character offsets, `none` when `saveSelection` returns
null), `imageId` (the generated `image-...` identifier) and `dataUrl`
(the `FileReader` result).  Invalid files only alert; a missing editor
element aborts; otherwise the element is inserted at the selection (or
appended), content is resynced, and — only when an upload handler is
configured — a `pending` record is appended. -/
def insertImage (cfg : HookConfig) (m : HookState) (file : ImageFile)
    (atCursor : Bool) (savedRange : Option (Nat × Nat))
    (imageId dataUrl : String) : HookState :=
  match validateImageFile cfg file with
  | some _ => m
  | none =>
    match m.editorHTML with
    | none => m
    | some html =>
      let newHtml := insertedHtml html (imgTag imageId file dataUrl) atCursor savedRange
      let m1 := hookUpdateContent newHtml { m with editorHTML := some newHtml }
      if cfg.hasOnImageUpload || cfg.hasImageUploadEndpoint then
        { m1 with
          pendingImages := m1.pendingImages
            ++ [{ id := imageId, file := file
                  placeholderUrl := dataUrl, status := ImageStatus.pending }] }
      else m1

/-- One `setEditorState` call inside `uploadPendingImages`: rewrite the
status of every record whose id matches. -/
def setStatus (pid : String) (st : ImageStatus)
    (l : List PendingImage) : List PendingImage :=
  l.map (fun img => if img.id = pid then { img with status := st } else img)

/-- One iteration of the upload loop for `image`: mark `uploading`,
await the upload (`up image` is `.ok url` when
`onImageUpload`/the endpoint resolves, `.error e` when it rejects —
the `catch` marks the record `failed` instead of propagating). -/
def processOne (up : PendingImage → Except String String)
    (l : List PendingImage) (image : PendingImage) : List PendingImage :=
  let l1 := setStatus image.id ImageStatus.uploading l
  match up image with
  | Except.ok _ => setStatus image.id ImageStatus.uploaded l1
  | Except.error _ => setStatus image.id ImageStatus.failed l1

/-- `uploadPendingImages`, restricted to its effect on `pendingImages`
(the DOM `src` swap and the final content resync touch only
`content`/`editorHTML`, never the records): no-op without an upload
handler, otherwise sequentially process the records that were `pending`
when the batch started. -/
def uploadPendingImages (cfg : HookConfig)
    (up : PendingImage → Except String String)
    (l : List PendingImage) : List PendingImage :=
  if cfg.hasOnImageUpload || cfg.hasImageUploadEndpoint then
    (l.filter (fun img => img.status = ImageStatus.pending)).foldl
      (processOne up) l
  else l

/-- Hook `getValidationResult`: reads `editorRef.current?.innerHTML ||
editorState.content`, builds the `EditorContent` object directly (no
schema parse — the `try` block cannot throw) and always succeeds. -/
def hookGetValidationResult (m : HookState) (now : String) : ValidationResult :=
  let content :=
    match m.editorHTML with
    | some h => if h = "" then m.content else h
    | none => m.content
  ValidationResult.ok
    { title := m.title, content := content, format := "html"
      metadata := some
        { createdAt := now, updatedAt := now
          wordCount := m.wordCount, characterCount := m.characterCount } }

/-- The hook's inline stylesheet fragment (CSS braces written as
escapes). -/
def hookStyles : String :=
  "\n  <style>\n    body \x7b \n      font-family: system-ui, -apple-system, sans-serif; \n      line-height: 1.6; \n      margin: 40px; \n      max-width: 800px; \n      background: #f8fafc;\n    \x7d\n    .editor-content \x7b \n      border: 1px solid #e2e8f0; \n      padding: 24px; \n      border-radius: 12px; \n      background: white;\n      box-shadow: 0 1px 3px 0 rgb(0 0 0 / 0.1);\n    \x7d\n    .readonly-content \x7b\n      background: #f9f9f9;\n      cursor: default;\n      user-select: text;\n    \x7d\n    img \x7b \n      max-width: 100%; \n      height: auto; \n      border-radius: 8px; \n      box-shadow: 0 2px 4px rgba(0,0,0,0.1);\n      margin: 16px 0;\n    \x7d\n    h1 \x7b font-size: 2em; margin: 0.67em 0; \x7d\n    h2 \x7b font-size: 1.5em; margin: 0.75em 0; \x7d\n    p \x7b margin: 1em 0; \x7d\n    ul, ol \x7b margin: 1em 0; padding-left: 2em; \x7d\n    a \x7b color: #2563eb; text-decoration: underline; \x7d\n    .image-uploading \x7b opacity: 0.7; \x7d\n    .image-failed \x7b border: 2px solid #ef4444; \x7d\n  </style>"

/-- Hook `exportToHTML` document text (`data.title || 'Document'` in
the `<title>`, meta block guarded by `options.includeMeta && data`). -/
def hookHtml (data : EditorContent) (opts : ExportOptions)
    (locale : String → String) : String :=
  let md := data.metadata.getD
    { createdAt := "", updatedAt := "", wordCount := 0, characterCount := 0 }
  let head := "<!DOCTYPE html>\n<html>\n<head>\n  <meta charset=\"UTF-8\">\n  <meta name=\"viewport\" content=\"width=device-width, initial-scale=1.0\">\n  <title>" ++ (if data.title = "" then "Document" else data.title) ++ "</title>"
  let head := if opts.includeStyles then head ++ hookStyles else head
  let head := head ++ "\n</head>\n<body>"
  let head :=
    if opts.includeMeta then
      head ++ "\n  <div class=\"document-meta\">\n    <h1>" ++ data.title
        ++ "</h1>\n    <p><small>Created: " ++ locale md.createdAt
        ++ " | \n    Words: " ++ toString md.wordCount
        ++ " | \n    Characters: " ++ toString md.characterCount
        ++ "</small></p>\n    <hr>\n  </div>"
    else head
  head ++ "\n  <div class=\""
    ++ (if opts.includeStyles then "readonly-content" else "")
    ++ "\">\n    " ++ data.content ++ "\n  </div>\n</body>\n</html>"

/-- Hook `exportToHTML`: throws only when `getValidationResult` fails. -/
def hookExportToHTML (m : HookState) (now : String) (opts : ExportOptions)
    (locale : String → String) : Except String String :=
  match hookGetValidationResult m now with
  | ValidationResult.err e => Except.error e
  | ValidationResult.ok data => Except.ok (hookHtml data opts locale)

/-- Hook `clearEditor`: reset the state, wipe the live region. -/
def hookClearEditor (_m : HookState) : HookState :=
  { content := "", title := "Untitled Document"
    wordCount := 0, characterCount := 0
    hasUnsavedChanges := false, pendingImages := []
    editorHTML := some "" }

/-! ### Spec-side readings used by refinement claims -/

/-- Spec reading of the word count: "the number of whitespace-delimited
non-empty tokens of the trimmed C". -/
def specWordCount (content : String) : Nat :=
  (splitWsTokens (jsTrim content.toList)).length

/-- A validation result with the volatile `createdAt`/`updatedAt`
timestamps blanked, leaving the success flag, the document data and the
counts. -/
def stripTimes : ValidationResult → ValidationResult
  | ValidationResult.ok d =>
      ValidationResult.ok
        { d with metadata :=
            Option.map (fun md => { md with createdAt := "", updatedAt := "" }) d.metadata }
  | ValidationResult.err e => ValidationResult.err e

/-! ### General lemmas -/

lemma string_length_eq_zero_iff (s : String) : s.length = 0 ↔ s = "" := by
  constructor
  · intro h
    cases s with
    | mk d =>
      cases d with
      | nil => rfl
      | cons c cs => simp [String.length] at h
  · intro h
    subst h
    rfl

lemma splitWsTokens_nil : splitWsTokens [] = [] := rfl

/-! ### Theorems for the claims -/

/-- C1: for every content string `C`, after `updateContent C` the
state's `characterCount` equals the length of `C` and its `wordCount`
equals the number of whitespace-delimited non-empty tokens of the
trimmed `C` (`0` when the trimmed `C` is empty), regardless of the
prior state. -/
theorem updateContent_counts (C : String) (s : EditorState) :
    (updateContent C s).characterCount = C.length ∧
    (updateContent C s).wordCount = specWordCount C := by
  refine ⟨rfl, ?_⟩
  simp only [updateContent, calculateCounts, specWordCount]
  split
  · next h => rw [h, splitWsTokens_nil]; rfl
  · rfl

/-- C2: from any state, `clearEditor` followed by `exportToHTML` fails
the schema's non-empty-content check and throws, for any options,
timestamp and locale rendering; no export string is produced. -/
theorem clear_then_export_throws (s : EditorState) (now : String)
    (opts : ExportOptions) (locale : String → String) :
    ∃ e, exportToHTML (clearEditor s) now opts locale = Except.error e :=
  ⟨"Content is required", rfl⟩

lemma getValidationResult_err_iff (s : EditorState) (now : String)
    (hnow : zDatetimeOk now = true) :
    (∃ e, getValidationResult s now = ValidationResult.err e) ↔
      (s.title = "" ∨ 200 < s.title.length ∨ s.content = "") := by
  unfold getValidationResult validationError
  split_ifs with h1 h2 h3
  · simp only [ValidationResult.err.injEq, exists_eq', true_iff]
    exact Or.inl ((string_length_eq_zero_iff _).mp (by omega))
  · simp only [ValidationResult.err.injEq, exists_eq', true_iff]
    exact Or.inr (Or.inl (by omega))
  · simp only [ValidationResult.err.injEq, exists_eq', true_iff]
    exact Or.inr (Or.inr ((string_length_eq_zero_iff _).mp (by omega)))
  · simp only [hnow, not_true, reduceIte, reduceCtorEq, exists_false, false_iff]
    rintro (h | h | h)
    · exact h1 (by rw [h]; decide)
    · exact h2 (by omega)
    · exact h3 (by rw [h]; decide)

/-- C3: given a well-formed clock reading (as `toISOString` always
produces), `exportToHTML` throws exactly when the title is empty, the
title is longer than 200 characters, or the content is empty; on every
other state it returns a document string without throwing. -/
theorem exportToHTML_throws_iff (s : EditorState) (now : String)
    (opts : ExportOptions) (locale : String → String)
    (hnow : zDatetimeOk now = true) :
    (∃ e, exportToHTML s now opts locale = Except.error e) ↔
      (s.title = "" ∨ 200 < s.title.length ∨ s.content = "") := by
  rw [← getValidationResult_err_iff s now hnow]
  unfold exportToHTML
  cases h : getValidationResult s now with
  | ok d => simp
  | err e => simp

/-- Sample valid state used to instantiate hypotheses of the store
theorems. -/
def sampleEditorState : EditorState :=
  { content := "<p>x</p>", title := "Doc", wordCount := 1
    characterCount := 8, hasUnsavedChanges := true, activeFormats := [] }

/-- Witness for C3 at a concrete valid state and clock reading. -/
theorem exportToHTML_throws_iff_witness :
    zDatetimeOk "2024-05-05T12:00:00.000Z" = true ∧
    ((∃ e, exportToHTML sampleEditorState "2024-05-05T12:00:00.000Z"
        ⟨true, true⟩ id = Except.error e) ↔
      (sampleEditorState.title = "" ∨ 200 < sampleEditorState.title.length ∨
        sampleEditorState.content = "")) :=
  ⟨by decide,
   exportToHTML_throws_iff sampleEditorState "2024-05-05T12:00:00.000Z"
     ⟨true, true⟩ id (by decide)⟩

/-- C4 counterexample: the scenario claims `wordCount = 2` and
`characterCount = 19` for `"<p>Hello world</p>"`, but that string has
18 characters, so `calculateCounts` yields `characterCount = 18`. -/
theorem scenario_hello_world_counterexample :
    ¬ ((updateContent "<p>Hello world</p>" initialState).wordCount = 2 ∧
       (updateContent "<p>Hello world</p>" initialState).characterCount = 19) := by
  decide

/-- C4 amended: after `updateContent "<p>Hello world</p>"` the state
has `wordCount = 2` and `characterCount = 18`. -/
theorem scenario_hello_world_amended :
    (updateContent "<p>Hello world</p>" initialState).wordCount = 2 ∧
    (updateContent "<p>Hello world</p>" initialState).characterCount = 18 := by
  decide

/-- C8 counterexample: two calls of `getValidationResult` on the same
state but at clock readings one second apart return different results —
the embedded `createdAt`/`updatedAt` timestamps differ. -/
theorem getValidationResult_not_identical_counterexample :
    getValidationResult sampleEditorState "2024-01-01T00:00:00.000Z" ≠
      getValidationResult sampleEditorState "2024-01-01T00:00:01.000Z" := by
  decide

lemma validationError_time_eq (title content : String) (md1 md2 : Metadata)
    (h1c : zDatetimeOk md1.createdAt = true)
    (h1u : zDatetimeOk md1.updatedAt = true)
    (h2c : zDatetimeOk md2.createdAt = true)
    (h2u : zDatetimeOk md2.updatedAt = true) :
    validationError title content md1 = validationError title content md2 := by
  unfold validationError
  simp [h1c, h1u, h2c, h2u]

/-- C8 amended: two calls of `getValidationResult` without intervening
mutation agree on everything except the metadata timestamps (which are
each call's clock reading): in particular the success flag, title,
content, format, error message and counts coincide, and with equal
clock readings the results are fully identical. -/
theorem getValidationResult_idem_up_to_timestamps (s : EditorState)
    (t1 t2 : String) (h1 : zDatetimeOk t1 = true)
    (h2 : zDatetimeOk t2 = true) :
    stripTimes (getValidationResult s t1) =
      stripTimes (getValidationResult s t2) := by
  simp only [getValidationResult]
  rw [validationError_time_eq s.title s.content
    ⟨t1, t1, s.wordCount, s.characterCount⟩
    ⟨t2, t2, s.wordCount, s.characterCount⟩ h1 h1 h2 h2]
  cases h : validationError s.title s.content
      ⟨t2, t2, s.wordCount, s.characterCount⟩ with
  | some e => rfl
  | none => simp [stripTimes]

/-- Witness for C8's amended claim at a concrete state and two concrete
clock readings. -/
theorem getValidationResult_idem_witness :
    zDatetimeOk "2024-01-01T00:00:00.000Z" = true ∧
    zDatetimeOk "2024-01-01T00:00:01.000Z" = true ∧
    stripTimes (getValidationResult sampleEditorState "2024-01-01T00:00:00.000Z") =
      stripTimes (getValidationResult sampleEditorState "2024-01-01T00:00:01.000Z") :=
  ⟨by decide, by decide,
   getValidationResult_idem_up_to_timestamps sampleEditorState
     "2024-01-01T00:00:00.000Z" "2024-01-01T00:00:01.000Z"
     (by decide) (by decide)⟩

/-- C9: the hook's `getValidationResult` succeeds on every state — its
`try` block only constructs an object — and consequently the hook's
`exportToHTML` returns a document string and never throws. -/
theorem hook_export_never_throws (m : HookState) (now : String)
    (opts : ExportOptions) (locale : String → String) :
    (∃ d, hookGetValidationResult m now = ValidationResult.ok d) ∧
    (∃ h, hookExportToHTML m now opts locale = Except.ok h) :=
  ⟨⟨_, rfl⟩, ⟨_, rfl⟩⟩

lemma validateImageFile_invalid (cfg : HookConfig) (file : ImageFile)
    (h : ¬ cfg.allowedImageTypes.contains file.type ∨
         cfg.maxImageSize < file.size) :
    ∃ e, validateImageFile cfg file = some e := by
  unfold validateImageFile
  by_cases h1 : cfg.allowedImageTypes.contains file.type = true
  · rw [if_neg (not_not_intro h1)]
    rcases h with h | h
    · exact absurd h1 h
    · rw [if_pos h]
      exact ⟨_, rfl⟩
  · rw [if_pos h1]
    exact ⟨_, rfl⟩

/-- C5: a file that fails image validation (MIME type not allowed, or
size over the maximum) leaves `insertImage` a no-op: the whole hook
state — `pendingImages`, content, counts and all other fields — is
unchanged. -/
theorem insertImage_invalid_no_mutation (cfg : HookConfig) (m : HookState)
    (file : ImageFile) (atCursor : Bool) (savedRange : Option (Nat × Nat))
    (imageId dataUrl : String)
    (h : ¬ cfg.allowedImageTypes.contains file.type ∨
         cfg.maxImageSize < file.size) :
    insertImage cfg m file atCursor savedRange imageId dataUrl = m := by
  obtain ⟨e, he⟩ := validateImageFile_invalid cfg file h
  unfold insertImage
  rw [he]

/-- Sample hook configuration matching the hook's default props. -/
def sampleCfg : HookConfig :=
  { hasOnImageUpload := true, hasImageUploadEndpoint := false
    allowedImageTypes := ["image/jpeg", "image/png", "image/gif", "image/webp"]
    maxImageSize := 5 * 1024 * 1024 }

/-- A file whose MIME type is not in the allow-list. -/
def badFile : ImageFile := { name := "a.txt", type := "text/plain", size := 10 }

/-- A file passing validation under the sample configurations. -/
def pngFile : ImageFile := { name := "a.png", type := "image/png", size := 100 }

/-- Sample hook state with the editable region mounted and empty. -/
def sampleHookState : HookState :=
  { content := "", title := "Untitled Document", wordCount := 0
    characterCount := 0, hasUnsavedChanges := false, pendingImages := []
    editorHTML := some "" }

/-- Witness for C5 at a concrete rejected file. -/
theorem insertImage_invalid_witness :
    (¬ sampleCfg.allowedImageTypes.contains badFile.type ∨
      sampleCfg.maxImageSize < badFile.size) ∧
    insertImage sampleCfg sampleHookState badFile true none "image-1" "data:x" =
      sampleHookState :=
  ⟨Or.inl (by decide),
   insertImage_invalid_no_mutation sampleCfg sampleHookState badFile true none
     "image-1" "data:x" (Or.inl (by decide))⟩

/-- A hook configuration with neither `onImageUpload` nor
`imageUploadEndpoint` supplied. -/
def noUploadCfg : HookConfig :=
  { hasOnImageUpload := false, hasImageUploadEndpoint := false
    allowedImageTypes := ["image/jpeg", "image/png", "image/gif", "image/webp"]
    maxImageSize := 5 * 1024 * 1024 }

/-- C6 counterexample: when no upload handler is configured, a file
that passes validation is inserted into the document but no record is
appended to `pendingImages` — the append is guarded by
`onImageUpload || imageUploadEndpoint`. -/
theorem insertImage_pending_counterexample :
    validateImageFile noUploadCfg pngFile = none ∧
    (insertImage noUploadCfg sampleHookState pngFile true none
      "image-1" "data:x").pendingImages = [] := by
  decide

lemma insertedHtml_contains (html tag : String) (atCursor : Bool)
    (savedRange : Option (Nat × Nat)) :
    ∃ pre post, insertedHtml html tag atCursor savedRange = pre ++ tag ++ post := by
  cases atCursor with
  | false =>
    exact ⟨html, "", by unfold insertedHtml; rw [String.append_empty]⟩
  | true =>
    rcases savedRange with _ | ⟨a, b⟩
    · exact ⟨html, "", by unfold insertedHtml; rw [String.append_empty]⟩
    · exact ⟨(html.toList.take a).asString, (html.toList.drop b).asString, rfl⟩

/-- C6 amended: for a file that passes validation, when the editable
region is mounted and an upload handler (`onImageUpload` or
`imageUploadEndpoint`) is configured, `insertImage` appends the record
`{id, file, placeholderUrl, status := pending}` to `pendingImages` and
the tagged `<img>` element appears in the document content. -/
theorem insertImage_valid_appends_pending (cfg : HookConfig) (m : HookState)
    (file : ImageFile) (atCursor : Bool) (savedRange : Option (Nat × Nat))
    (imageId dataUrl html : String)
    (hv : validateImageFile cfg file = none)
    (hed : m.editorHTML = some html)
    (hup : (cfg.hasOnImageUpload || cfg.hasImageUploadEndpoint) = true) :
    (insertImage cfg m file atCursor savedRange imageId dataUrl).pendingImages =
      m.pendingImages ++
        [{ id := imageId, file := file, placeholderUrl := dataUrl
           status := ImageStatus.pending }] ∧
    ∃ pre post,
      (insertImage cfg m file atCursor savedRange imageId dataUrl).content =
        pre ++ imgTag imageId file dataUrl ++ post := by
  simp only [insertImage, hv, hed, hup, hookUpdateContent, if_true]
  exact ⟨trivial, insertedHtml_contains html (imgTag imageId file dataUrl) atCursor savedRange⟩

/-! #### Upload loop analysis (C7, C10)

`processOne` is a composition of two id-keyed maps over the record
list, so the whole sequential loop acts independently on each record:
`stepElem` is the per-record effect of one iteration and `elemFold` the
cumulative effect of the batch. -/

/-- Per-record effect of one upload-loop iteration processing `p`:
a record with a matching id ends at `p`'s own final status. -/
def stepElem (up : PendingImage → Except String String)
    (p img : PendingImage) : PendingImage :=
  if img.id = p.id then
    { img with status :=
        match up p with
        | Except.ok _ => ImageStatus.uploaded
        | Except.error _ => ImageStatus.failed }
  else img

/-- Cumulative per-record effect of processing the batch `ps`. -/
def elemFold (up : PendingImage → Except String String)
    (ps : List PendingImage) (img : PendingImage) : PendingImage :=
  ps.foldl (fun a p => stepElem up p a) img

lemma processOne_eq_map (up : PendingImage → Except String String)
    (l : List PendingImage) (p : PendingImage) :
    processOne up l p = l.map (stepElem up p) := by
  unfold processOne setStatus
  cases hup : up p with
  | ok u =>
    simp only [List.map_map]
    refine List.map_congr_left ?_
    intro img _
    by_cases h : img.id = p.id <;> simp [Function.comp, stepElem, h, hup]
  | error e =>
    simp only [List.map_map]
    refine List.map_congr_left ?_
    intro img _
    by_cases h : img.id = p.id <;> simp [Function.comp, stepElem, h, hup]

lemma foldl_processOne_eq_map (up : PendingImage → Except String String)
    (ps l : List PendingImage) :
    ps.foldl (processOne up) l = l.map (elemFold up ps) := by
  induction ps generalizing l with
  | nil =>
    have h : l.map (elemFold up []) = l.map id :=
      List.map_congr_left (fun a _ => rfl)
    rw [List.foldl_nil, h, List.map_id]
  | cons p ps ih =>
    rw [List.foldl_cons, ih, processOne_eq_map, List.map_map]
    rfl

lemma stepElem_id (up : PendingImage → Except String String)
    (p img : PendingImage) : (stepElem up p img).id = img.id := by
  unfold stepElem
  split <;> rfl

lemma elemFold_noMatch (up : PendingImage → Except String String)
    (ps : List PendingImage) (img : PendingImage)
    (h : ∀ p ∈ ps, p.id ≠ img.id) : elemFold up ps img = img := by
  induction ps with
  | nil => rfl
  | cons p ps ih =>
    have hstep : stepElem up p img = img := by
      unfold stepElem
      rw [if_neg (fun he => h p (List.mem_cons_self p ps) he.symm)]
    show elemFold up ps (stepElem up p img) = img
    rw [hstep]
    exact ih (fun q hq => h q (List.mem_cons_of_mem _ hq))

lemma elemFold_hit (up : PendingImage → Except String String)
    (ps1 ps2 : List PendingImage) (p img : PendingImage)
    (h1 : ∀ q ∈ ps1, q.id ≠ img.id) (h2 : ∀ q ∈ ps2, q.id ≠ img.id)
    (_hp : p.id = img.id) :
    elemFold up (ps1 ++ p :: ps2) img = stepElem up p img := by
  unfold elemFold
  rw [List.foldl_append]
  rw [show List.foldl (fun a q => stepElem up q a) img ps1 = img from
    elemFold_noMatch up ps1 img h1]
  rw [List.foldl_cons]
  refine elemFold_noMatch up ps2 (stepElem up p img) ?_
  intro q hq
  rw [stepElem_id]
  exact h2 q hq

/-- The batch the loop iterates over: the records that were `pending`
when `uploadPendingImages` started. -/
def pendingBatch (l : List PendingImage) : List PendingImage :=
  l.filter (fun img => img.status = ImageStatus.pending)

lemma elemFold_pendingBatch (up : PendingImage → Except String String)
    (l : List PendingImage) (a : PendingImage)
    (hnodup : (l.map PendingImage.id).Nodup) (ha : a ∈ l) :
    elemFold up (pendingBatch l) a =
      if a.status = ImageStatus.pending then stepElem up a a else a := by
  have hinj := List.inj_on_of_nodup_map hnodup
  by_cases hp : a.status = ImageStatus.pending
  · rw [if_pos hp]
    have haf : a ∈ pendingBatch l :=
      List.mem_filter.mpr ⟨ha, by simp [hp]⟩
    obtain ⟨ps1, ps2, hsplit⟩ := List.append_of_mem haf
    have hnd : (pendingBatch l).Nodup :=
      List.Nodup.filter _ (List.Nodup.of_map _ hnodup)
    rw [hsplit] at hnd
    obtain ⟨hnd1, hnd2, hdisj⟩ := List.nodup_append.mp hnd
    have hnotps1 : a ∉ ps1 :=
      fun hmem => hdisj hmem (List.mem_cons_self a ps2)
    have hnotps2 : a ∉ ps2 := (List.nodup_cons.mp hnd2).1
    rw [hsplit]
    refine elemFold_hit up ps1 ps2 a a ?_ ?_ rfl
    · intro q hq hid
      have hqb : q ∈ pendingBatch l := by
        rw [hsplit]; exact List.mem_append_left _ hq
      have hql : q ∈ l := (List.mem_filter.mp hqb).1
      exact hnotps1 (hinj hql ha hid ▸ hq)
    · intro q hq hid
      have hqb : q ∈ pendingBatch l := by
        rw [hsplit]; exact List.mem_append_right _ (List.mem_cons_of_mem _ hq)
      have hql : q ∈ l := (List.mem_filter.mp hqb).1
      exact hnotps2 (hinj hql ha hid ▸ hq)
  · rw [if_neg hp]
    refine elemFold_noMatch up (pendingBatch l) a ?_
    intro q hq hid
    have hqm := List.mem_filter.mp hq
    have hqa : q = a := hinj hqm.1 ha hid
    rw [hqa] at hqm
    exact hp (by simpa using hqm.2)

lemma uploadPendingImages_eq_map (cfg : HookConfig)
    (up : PendingImage → Except String String) (l : List PendingImage)
    (hcfg : (cfg.hasOnImageUpload || cfg.hasImageUploadEndpoint) = true) :
    uploadPendingImages cfg up l = l.map (elemFold up (pendingBatch l)) := by
  unfold uploadPendingImages
  rw [if_pos hcfg]
  exact foldl_processOne_eq_map up (pendingBatch l) l

lemma zip_self_map {α β : Type} (l : List α) (f : α → β) :
    l.zip (l.map f) = l.map (fun a => (a, f a)) := by
  induction l with
  | nil => rfl
  | cons a l ih => simp [ih]

/-- C7: during `uploadPendingImages`, each pending image's fate depends
only on its own upload outcome — a rejection is caught per-image and
marks exactly that record `failed`, while every other pending record is
still processed to `uploaded` when its own upload resolves; the loop
itself always runs to completion and returns the updated list, so the
surrounding save/export flow is not aborted. -/
theorem uploadPendingImages_per_image (cfg : HookConfig)
    (up : PendingImage → Except String String) (l : List PendingImage)
    (hcfg : (cfg.hasOnImageUpload || cfg.hasImageUploadEndpoint) = true)
    (hnodup : (l.map PendingImage.id).Nodup) :
    ∀ ab ∈ l.zip (uploadPendingImages cfg up l),
      ab.1.status = ImageStatus.pending →
      (∀ e, up ab.1 = Except.error e → ab.2.status = ImageStatus.failed) ∧
      (∀ u, up ab.1 = Except.ok u → ab.2.status = ImageStatus.uploaded) := by
  rw [uploadPendingImages_eq_map cfg up l hcfg, zip_self_map]
  intro ab hab hpend
  obtain ⟨a, ha, rfl⟩ := List.mem_map.mp hab
  rw [elemFold_pendingBatch up l a hnodup ha, if_pos hpend]
  constructor
  · intro e he
    simp [stepElem, he]
  · intro u hu
    simp [stepElem, hu]

/-- Witness for C7: two pending images with the first upload rejecting
and the second resolving. -/
def imgA : PendingImage :=
  { id := "image-a", file := pngFile, placeholderUrl := "data:a"
    status := ImageStatus.pending }

/-- Second sample record, id distinct from `imgA`. -/
def imgB : PendingImage :=
  { id := "image-b", file := pngFile, placeholderUrl := "data:b"
    status := ImageStatus.pending }

/-- Sample upload outcome: `imgA`'s upload rejects, everything else
resolves. -/
def sampleUp (img : PendingImage) : Except String String :=
  if img.id = "image-a" then Except.error "network down"
  else Except.ok "https://cdn/img"

theorem uploadPendingImages_per_image_witness :
    (sampleCfg.hasOnImageUpload || sampleCfg.hasImageUploadEndpoint) = true ∧
    (([imgA, imgB].map PendingImage.id).Nodup) ∧
    (∀ ab ∈ [imgA, imgB].zip
        (uploadPendingImages sampleCfg sampleUp [imgA, imgB]),
      ab.1.status = ImageStatus.pending →
      (∀ e, sampleUp ab.1 = Except.error e →
        ab.2.status = ImageStatus.failed) ∧
      (∀ u, sampleUp ab.1 = Except.ok u →
        ab.2.status = ImageStatus.uploaded)) :=
  ⟨by decide, by decide,
   uploadPendingImages_per_image sampleCfg sampleUp [imgA, imgB]
     (by decide) (by decide)⟩

/-- C10: after `uploadPendingImages` returns — on a quiescent start
state (distinct generated ids, no batch already in flight, an upload
handler configured) — no record is left `uploading`: positionally,
every record that was `pending` when the batch started ends `uploaded`
or `failed`, and every record with any other status is unchanged. -/
theorem uploadPendingImages_statuses (cfg : HookConfig)
    (up : PendingImage → Except String String) (l : List PendingImage)
    (hcfg : (cfg.hasOnImageUpload || cfg.hasImageUploadEndpoint) = true)
    (hnodup : (l.map PendingImage.id).Nodup)
    (hnoupl : ∀ img ∈ l, img.status ≠ ImageStatus.uploading) :
    (uploadPendingImages cfg up l).length = l.length ∧
    (∀ b ∈ uploadPendingImages cfg up l,
      b.status ≠ ImageStatus.uploading) ∧
    (∀ ab ∈ l.zip (uploadPendingImages cfg up l),
      (ab.1.status = ImageStatus.pending →
        ab.2.status = ImageStatus.uploaded ∨
        ab.2.status = ImageStatus.failed) ∧
      (ab.1.status ≠ ImageStatus.pending → ab.2 = ab.1)) := by
  rw [uploadPendingImages_eq_map cfg up l hcfg, zip_self_map]
  refine ⟨List.length_map l _, ?_, ?_⟩
  · intro b hb
    obtain ⟨a, ha, rfl⟩ := List.mem_map.mp hb
    rw [elemFold_pendingBatch up l a hnodup ha]
    by_cases hp : a.status = ImageStatus.pending
    · rw [if_pos hp]
      cases hu : up a <;> simp [stepElem, hu]
    · rw [if_neg hp]
      exact hnoupl a ha
  · intro ab hab
    obtain ⟨a, ha, rfl⟩ := List.mem_map.mp hab
    rw [elemFold_pendingBatch up l a hnodup ha]
    constructor
    · intro hp
      rw [if_pos hp]
      cases hu : up a <;> simp [stepElem, hu]
    · intro hp
      rw [if_neg hp]

/-- Witness for C10: one pending record and one already-uploaded
record; the pending one resolves, the other is untouched. -/
def imgC : PendingImage :=
  { id := "image-c", file := pngFile, placeholderUrl := "data:c"
    status := ImageStatus.uploaded }

theorem uploadPendingImages_statuses_witness :
    (sampleCfg.hasOnImageUpload || sampleCfg.hasImageUploadEndpoint) = true ∧
    (([imgB, imgC].map PendingImage.id).Nodup) ∧
    (∀ img ∈ [imgB, imgC], img.status ≠ ImageStatus.uploading) ∧
    ((uploadPendingImages sampleCfg sampleUp [imgB, imgC]).length =
        [imgB, imgC].length ∧
      (∀ b ∈ uploadPendingImages sampleCfg sampleUp [imgB, imgC],
        b.status ≠ ImageStatus.uploading) ∧
      (∀ ab ∈ [imgB, imgC].zip
          (uploadPendingImages sampleCfg sampleUp [imgB, imgC]),
        (ab.1.status = ImageStatus.pending →
          ab.2.status = ImageStatus.uploaded ∨
          ab.2.status = ImageStatus.failed) ∧
        (ab.1.status ≠ ImageStatus.pending → ab.2 = ab.1))) :=
  ⟨by decide, by decide, by decide,
   uploadPendingImages_statuses sampleCfg sampleUp [imgB, imgC]
     (by decide) (by decide) (by decide)⟩

/-- Witness for C6's amended claim at a concrete valid file. -/
theorem insertImage_valid_appends_witness :
    validateImageFile sampleCfg pngFile = none ∧
    sampleHookState.editorHTML = some "" ∧
    (sampleCfg.hasOnImageUpload || sampleCfg.hasImageUploadEndpoint) = true ∧
    ((insertImage sampleCfg sampleHookState pngFile true none
        "image-1" "data:x").pendingImages =
      sampleHookState.pendingImages ++
        [{ id := "image-1", file := pngFile, placeholderUrl := "data:x"
           status := ImageStatus.pending }] ∧
    ∃ pre post,
      (insertImage sampleCfg sampleHookState pngFile true none
        "image-1" "data:x").content =
        pre ++ imgTag "image-1" pngFile "data:x" ++ post) :=
  ⟨by decide, rfl, by decide,
   insertImage_valid_appends_pending sampleCfg sampleHookState pngFile true none
     "image-1" "data:x" "" (by decide) rfl (by decide)⟩

end TextEditor
